import Mathlib

/-!
Verification of the `logtweaks` logging utilities: a shallow embedding of
`src/logtweaks.py` (the `PrettyStreamHandler` colouring handler, the `indent`
helper and the `IndentingLoggerAdapter`), together with theorems settling the
spec's claims about them.

Conventions of the embedding:
- Python `str` is Lean `String` (a wrapper around `List Char`).
- Python `int` is Lean `Int`.
- The host `logging` framework is an external collaborator: the delegated base
  formatter (`logging.StreamHandler.format`) is passed as a function argument,
  and the output stream is represented only by its `isatty` capability
  (`Option Bool`, `none` meaning the object has no `isatty` attribute, so that
  calling it raises `AttributeError`).
- Fallible construction returns `Except String`, the error text naming the
  Python exception type that would be raised.
-/

namespace Logtweaks

/-- Severity level constant `logging.DEBUG`. -/
def DEBUG : Int := 10

/-- Severity level constant `logging.INFO`. -/
def INFO : Int := 20

/-- Severity level constant `logging.WARNING`. -/
def WARNING : Int := 30

/-- Severity level constant `logging.ERROR`. -/
def ERROR : Int := 40

/-- Severity level constant `logging.CRITICAL`. -/
def CRITICAL : Int := 50

/-- A log record as read by this program: `PrettyStreamHandler.format` reads
only `record.levelno`; the rest of the record is consumed opaquely by the
delegated base formatter, so a rendered message field stands in for it. -/
structure LogRecord where
  levelno : Int
  msg : String
deriving DecidableEq

/-- `PrettyStreamHandler.COLOURS`: mapping from logging levels to ANSI colours
(src/logtweaks.py lines 26-31).  A Python `dict` with distinct `int` keys is
embedded as an association list. -/
def COLOURS : List (Int × String) :=
  [(DEBUG, "\x1b[36m"),
   (WARNING, "\x1b[33m"),
   (ERROR, "\x1b[31m"),
   (CRITICAL, "\x1b[31;7m")]

/-- `PrettyStreamHandler.COLOUR_END`: ANSI code for resetting the terminal to
the default colour (src/logtweaks.py line 33). -/
def COLOUR_END : String := "\x1b[0m"

/-- Python `dict.get(k, dflt)` on an association list with `Int` keys. -/
def dict_get (d : List (Int × String)) (k : Int) (dflt : String) : String :=
  match d.lookup k with
  | some v => v
  | none => dflt

/-- The state of a `PrettyStreamHandler` that its `format` method reads: the
`colour` flag resolved at construction time (src/logtweaks.py lines 35-40). -/
structure PrettyStreamHandler where
  colour : Bool
deriving DecidableEq

/-- `PrettyStreamHandler.__init__` (src/logtweaks.py lines 35-40): when the
`colour` argument is `None`, the flag is `self.stream.isatty()` — which raises
`AttributeError` when the stream object has no `isatty` attribute — otherwise
the flag is the `colour` argument itself.  The stream is represented by its
`isatty` capability: `some b` for a stream whose `isatty()` returns `b`,
`none` for a stream lacking the method. -/
def PrettyStreamHandler.init (stream_isatty : Option Bool) (colour : Option Bool) :
    Except String PrettyStreamHandler :=
  match colour with
  | none =>
    match stream_isatty with
    | some b => Except.ok ⟨b⟩
    | none => Except.error "AttributeError"
  | some c => Except.ok ⟨c⟩

/-- `PrettyStreamHandler.format` (src/logtweaks.py lines 42-53): obtain the
base formatted message from the delegated standard formatter (`base_format`,
modelling the `super().format(record)` call), then if colour is on, wrap it in
the ANSI code looked up for `record.levelno` (default `''`) and the reset
code. -/
def PrettyStreamHandler.format (h : PrettyStreamHandler) (record : LogRecord)
    (base_format : LogRecord → String) : String :=
  let msg := base_format record
  if h.colour then
    dict_get COLOURS record.levelno "" ++ msg ++ COLOUR_END
  else
    msg

/-- Characters Python `str.splitlines` treats as line boundaries:
`\n`, `\r` (with `\r\n` as a single break), `\v`, `\f`, `\x1c`, `\x1d`,
`\x1e`, `\x85`, `\u2028`, `\u2029`. -/
def isLineBoundary (c : Char) : Bool :=
  c == '\n' || c == '\r' || c == '\x0b' || c == '\x0c' ||
  c == '\x1c' || c == '\x1d' || c == '\x1e' || c == '\x85' ||
  c == '\u2028' || c == '\u2029'

/-- Python `str.splitlines(True)` on the character list of a string: split
into lines, keeping each line's terminator; `\r\n` counts as one terminator;
a trailing fragment without a terminator is kept; the empty string yields no
lines. -/
def splitlinesAux : List Char → List (List Char)
  | [] => []
  | c :: cs =>
    let r := splitlinesAux cs
    if isLineBoundary c then
      if c == '\r' && cs.head? == some '\n' then
        ('\r' :: r.headI) :: r.tail
      else
        [c] :: r
    else
      match r with
      | [] => [[c]]
      | line :: rest => (c :: line) :: rest

/-- `data.splitlines(True)` at the `String` level. -/
def splitlines_true (data : String) : List String :=
  (splitlinesAux data.data).map String.mk

/-- Python string repetition `s * n`: `n` copies of `s`, the empty string when
`n <= 0`. -/
def pyStrMul (s : String) (n : Int) : String :=
  String.join (List.replicate n.toNat s)

/-- `logtweaks.indent` (src/logtweaks.py lines 56-57):
`''.join(string * amount + line for line in data.splitlines(True))`.
The Python defaults `amount=1`, `string='  '` are supplied explicitly by
callers in this embedding. -/
def indent (data : String) (amount : Int) (string : String) : String :=
  String.join ((splitlines_true data).map (fun line => pyStrMul string amount ++ line))

/-- The state of an `IndentingLoggerAdapter`: its `_indent_level` counter
(src/logtweaks.py line 77).  The wrapped logger is opaque to every operation
modelled here and is omitted from the state. -/
structure IndentingLoggerAdapter where
  _indent_level : Int
deriving DecidableEq

/-- `IndentingLoggerAdapter.__init__` (src/logtweaks.py lines 75-77): the
indent level starts at 0. -/
def IndentingLoggerAdapter.init : IndentingLoggerAdapter := ⟨0⟩

/-- `IndentingLoggerAdapter.indent` (src/logtweaks.py lines 79-80):
`self._indent_level += 1`. -/
def IndentingLoggerAdapter.indent (a : IndentingLoggerAdapter) : IndentingLoggerAdapter :=
  ⟨a._indent_level + 1⟩

/-- `IndentingLoggerAdapter.outdent` (src/logtweaks.py lines 82-83):
`self._indent_level = max(0, self._indent_level - 1)`. -/
def IndentingLoggerAdapter.outdent (a : IndentingLoggerAdapter) : IndentingLoggerAdapter :=
  ⟨max 0 (a._indent_level - 1)⟩

/-- `IndentingLoggerAdapter.process` (src/logtweaks.py lines 85-86):
`return (indent(msg, self._indent_level), kwargs)`, with the default indent
unit `'  '`. -/
def IndentingLoggerAdapter.process {K : Type} (a : IndentingLoggerAdapter)
    (msg : String) (kwargs : K) : String × K :=
  (Logtweaks.indent msg a._indent_level "  ", kwargs)

/-- Models the host dispatch path `logging.LoggerAdapter.log`: every
severity-level method routes `(msg, kwargs)` through `process` and forwards
the severity level itself unchanged to the wrapped logger. -/
def IndentingLoggerAdapter.log {K : Type} (a : IndentingLoggerAdapter)
    (level : Int) (msg : String) (kwargs : K) : Int × String × K :=
  (level, (a.process msg kwargs).1, (a.process msg kwargs).2)

/-- `n` successive calls of `IndentingLoggerAdapter.indent`. -/
def indentN : Nat → IndentingLoggerAdapter → IndentingLoggerAdapter
  | 0, a => a
  | n + 1, a => indentN n a.indent

/-- `n` successive calls of `IndentingLoggerAdapter.outdent`. -/
def outdentN : Nat → IndentingLoggerAdapter → IndentingLoggerAdapter
  | 0, a => a
  | n + 1, a => outdentN n a.outdent

/-- Character-list bodies joined with a single `\n` between consecutive
bodies: the canonical presentation of a message as a list of lines. -/
def chrJoinNL : List (List Char) → List Char
  | [] => []
  | [b] => b
  | b :: bs => b ++ '\n' :: chrJoinNL bs

/-- The lines, with kept terminators, that `splitlines` yields for
`chrJoinNL bodies`: every body but the last carries its `\n`. -/
def chrLinesOf : List (List Char) → List (List Char)
  | [] => []
  | [b] => [b]
  | b :: bs => (b ++ ['\n']) :: chrLinesOf bs

/-- String bodies joined with a single `\n` between consecutive bodies. -/
def strJoinNL : List String → String
  | [] => ""
  | [b] => b
  | b :: bs => b ++ "\n" ++ strJoinNL bs

/-- A string that is a valid single line body: it contains no line-boundary
character. -/
def lineOk (s : String) : Bool :=
  s.data.all (fun c => !isLineBoundary c)

theorem splitlinesAux_nl (t : List Char) :
    splitlinesAux ('\n' :: t) = ['\n'] :: splitlinesAux t := rfl

theorem splitlinesAux_cons_nonb (c : Char) (cs : List Char)
    (h : isLineBoundary c = false) :
    splitlinesAux (c :: cs) =
      match splitlinesAux cs with
      | [] => [[c]]
      | line :: rest => (c :: line) :: rest := by
  rw [splitlinesAux]
  simp [h]

theorem splitlinesAux_body_nl (b t : List Char)
    (hb : ∀ c ∈ b, isLineBoundary c = false) :
    splitlinesAux (b ++ '\n' :: t) = (b ++ ['\n']) :: splitlinesAux t := by
  induction b with
  | nil => simpa using splitlinesAux_nl t
  | cons x b ih =>
    have hx : isLineBoundary x = false := hb x (List.mem_cons_self x b)
    have ih2 := ih (fun c hc => hb c (List.mem_cons_of_mem x hc))
    rw [List.cons_append, splitlinesAux_cons_nonb x _ hx, ih2]
    simp

theorem splitlinesAux_nonb :
    ∀ b : List Char, b ≠ [] → (∀ c ∈ b, isLineBoundary c = false) →
      splitlinesAux b = [b]
  | [], hne, _ => absurd rfl hne
  | [x], _, hb => by
    rw [splitlinesAux_cons_nonb x [] (hb x (List.mem_cons_self x []))]
    rfl
  | x :: y :: bs, _, hb => by
    have hx := hb x (List.mem_cons_self _ _)
    have h2 : ∀ c ∈ y :: bs, isLineBoundary c = false :=
      fun c hc => hb c (List.mem_cons_of_mem x hc)
    rw [splitlinesAux_cons_nonb x _ hx,
      splitlinesAux_nonb (y :: bs) (by simp) h2]

theorem splitlinesAux_chrJoinNL :
    ∀ bodies : List (List Char),
      (∀ b ∈ bodies, ∀ c ∈ b, isLineBoundary c = false) →
      bodies.getLast? ≠ some [] →
      splitlinesAux (chrJoinNL bodies) = chrLinesOf bodies
  | [], _, _ => rfl
  | [b], hb, hl => by
    have hbne : b ≠ [] := by
      intro e
      subst e
      simp at hl
    show splitlinesAux b = [b]
    exact splitlinesAux_nonb b hbne (hb b (List.mem_cons_self _ _))
  | b :: b2 :: bs, hb, hl => by
    have h1 : ∀ c ∈ b, isLineBoundary c = false := hb b (List.mem_cons_self _ _)
    have h2 : ∀ x ∈ b2 :: bs, ∀ c ∈ x, isLineBoundary c = false :=
      fun x hx => hb x (List.mem_cons_of_mem _ hx)
    have hl2 : (b2 :: bs).getLast? ≠ some [] := by
      rwa [List.getLast?_cons_cons] at hl
    show splitlinesAux (b ++ '\n' :: chrJoinNL (b2 :: bs))
        = (b ++ ['\n']) :: chrLinesOf (b2 :: bs)
    rw [splitlinesAux_body_nl b _ h1, splitlinesAux_chrJoinNL (b2 :: bs) h2 hl2]

theorem flatten_map_chrLinesOf :
    ∀ (pfx : List Char) (bodies : List (List Char)),
      ((chrLinesOf bodies).map (fun l => pfx ++ l)).flatten =
        chrJoinNL (bodies.map (fun b => pfx ++ b))
  | _, [] => rfl
  | pfx, [b] => by simp [chrLinesOf, chrJoinNL]
  | pfx, b :: b2 :: bs => by
    have ih := flatten_map_chrLinesOf pfx (b2 :: bs)
    show (pfx ++ (b ++ ['\n']))
          ++ ((chrLinesOf (b2 :: bs)).map (fun l => pfx ++ l)).flatten
        = (pfx ++ b) ++ '\n' :: chrJoinNL ((b2 :: bs).map (fun x => pfx ++ x))
    rw [ih]
    simp

theorem strJoinNL_data :
    ∀ bodies : List String,
      (strJoinNL bodies).data = chrJoinNL (bodies.map String.data)
  | [] => rfl
  | [b] => rfl
  | b :: b2 :: bs => by
    have ih := strJoinNL_data (b2 :: bs)
    show (b ++ "\n" ++ strJoinNL (b2 :: bs)).data
        = b.data ++ '\n' :: chrJoinNL ((b2 :: bs).map String.data)
    rw [String.data_append, String.data_append, ih]
    simp

theorem pyStrMul_natCast (s : String) (d : Nat) :
    pyStrMul s (d : Int) = String.join (List.replicate d s) := by
  simp [pyStrMul]

/-- Core lemma behind C2 and C7: `indent` applied to a message presented as
`\n`-joined line bodies prepends `d` copies of the indent unit to every
line. -/
theorem indent_strJoinNL (bodies : List String) (d : Nat) (u : String)
    (hb : ∀ b ∈ bodies, lineOk b = true)
    (hl : bodies.getLast? ≠ some "") :
    Logtweaks.indent (strJoinNL bodies) (d : Int) u =
      strJoinNL (bodies.map (fun b => String.join (List.replicate d u) ++ b)) := by
  have hb' : ∀ bb ∈ bodies.map String.data, ∀ c ∈ bb, isLineBoundary c = false := by
    intro bb hbb
    obtain ⟨b, hbmem, rfl⟩ := List.mem_map.mp hbb
    have := hb b hbmem
    simp only [lineOk, List.all_eq_true, Bool.not_eq_true'] at this
    exact this
  have hl' : (bodies.map String.data).getLast? ≠ some [] := by
    intro e
    rw [List.getLast?_map] at e
    match hx : bodies.getLast? with
    | none => rw [hx] at e; simp at e
    | some s =>
      rw [hx] at e
      have hs : s.data = [] := by simpa using e
      have hs2 : s = "" := String.ext hs
      exact hl (hx.trans (by rw [hs2]))
  apply String.ext
  rw [Logtweaks.indent, splitlines_true, strJoinNL_data,
    splitlinesAux_chrJoinNL (bodies.map String.data) hb' hl',
    String.data_join, strJoinNL_data, pyStrMul_natCast]
  rw [List.map_map, List.map_map, List.map_map]
  have hfun :
      (String.data ∘ fun line : String => String.join (List.replicate d u) ++ line)
        ∘ String.mk
      = fun l : List Char => (String.join (List.replicate d u)).data ++ l := by
    funext l
    simp [String.data_append]
  rw [hfun, flatten_map_chrLinesOf]
  congr 1
  rw [List.map_map]
  apply List.map_congr_left
  intro b _
  simp [String.data_append]

/-- Core lemma behind C2 and C7 at the adapter level: `process` with the
depth equal to `d` prepends `d` copies of the two-space indent unit to every
line of the message and passes the kwargs through. -/
theorem process_strJoinNL {K : Type} (a : IndentingLoggerAdapter) (d : Nat)
    (hd : a._indent_level = (d : Int)) (bodies : List String) (kwargs : K)
    (hb : ∀ b ∈ bodies, lineOk b = true)
    (hl : bodies.getLast? ≠ some "") :
    a.process (strJoinNL bodies) kwargs =
      (strJoinNL (bodies.map (fun b => String.join (List.replicate d "  ") ++ b)),
        kwargs) := by
  rw [IndentingLoggerAdapter.process, hd, indent_strJoinNL bodies d "  " hb hl]

/-- C1: For every log record, when the handler's colour flag is enabled,
`format(record)` returns the ANSI code looked up for the record's severity
level in the static colour mapping (the empty string when the level is absent
from the mapping), followed by the base formatted string produced by the
delegated standard formatter, followed by the reset code; the reset code is
appended for every level, mapped or not. -/
theorem format_colour_enabled (h : PrettyStreamHandler) (record : LogRecord)
    (base_format : LogRecord → String) (hc : h.colour = true) :
    h.format record base_format =
      dict_get COLOURS record.levelno "" ++ base_format record ++ COLOUR_END ∧
    (∀ c, COLOURS.lookup record.levelno = some c →
      h.format record base_format = c ++ base_format record ++ COLOUR_END) ∧
    (COLOURS.lookup record.levelno = none →
      h.format record base_format = "" ++ base_format record ++ COLOUR_END) := by
  refine ⟨?_, ?_, ?_⟩
  · simp [PrettyStreamHandler.format, hc]
  · intro c hsome
    simp [PrettyStreamHandler.format, hc, dict_get, hsome]
  · intro hnone
    simp [PrettyStreamHandler.format, hc, dict_get, hnone]

/-- Witness for C1, the spec's scenario: colour forced on, an ERROR record
whose base-formatted text is `"[ERROR] boom"` formats to
`"\x1b[31m[ERROR] boom\x1b[0m"`. -/
theorem format_colour_enabled_witness :
    (⟨true⟩ : PrettyStreamHandler).colour = true ∧
    PrettyStreamHandler.format ⟨true⟩ ⟨ERROR, "boom"⟩ (fun _ => "[ERROR] boom") =
      "\x1b[31m[ERROR] boom\x1b[0m" := by
  refine ⟨rfl, ?_⟩
  have h := format_colour_enabled ⟨true⟩ ⟨ERROR, "boom"⟩ (fun _ => "[ERROR] boom") rfl
  rw [h.1]
  rfl

/-- C3: For every log record and every severity level, when the handler's
colour flag is disabled, `format(record)` returns exactly the base formatted
string produced by the delegated standard formatter, with no colour or reset
codes added. -/
theorem format_colour_disabled (h : PrettyStreamHandler) (record : LogRecord)
    (base_format : LogRecord → String) (hc : h.colour = false) :
    h.format record base_format = base_format record := by
  simp [PrettyStreamHandler.format, hc]

/-- Witness for C3: with colour forced off, an ERROR record formats to its
base text unchanged. -/
theorem format_colour_disabled_witness :
    (⟨false⟩ : PrettyStreamHandler).colour = false ∧
    PrettyStreamHandler.format ⟨false⟩ ⟨ERROR, "boom"⟩ (fun _ => "[ERROR] boom") =
      "[ERROR] boom" :=
  ⟨rfl, format_colour_disabled ⟨false⟩ ⟨ERROR, "boom"⟩ (fun _ => "[ERROR] boom") rfl⟩

/-- C4: When the handler is constructed without an explicit colour override
(auto mode), the colour flag is exactly the stream's `isatty()` answer:
enabled iff the stream reports being an interactive terminal, disabled for
non-interactive streams. -/
theorem init_auto_uses_isatty :
    ∀ b : Bool, PrettyStreamHandler.init (some b) none = Except.ok ⟨b⟩ :=
  fun _ => rfl

/-- C5 counterexample: constructing the handler in auto colour mode with a
stream that has no `isatty` capability does not succeed with colour disabled
— the construction raises instead. -/
theorem init_auto_no_isatty_counterexample :
    ¬ PrettyStreamHandler.init none none = Except.ok ⟨false⟩ := by
  simp [PrettyStreamHandler.init]

/-- C5 amended: constructing the handler in auto colour mode with a stream
lacking an `isatty` capability raises `AttributeError` (the unguarded
`self.stream.isatty()` call fails) instead of defaulting to colour
disabled. -/
theorem init_auto_no_isatty_raises :
    PrettyStreamHandler.init none none = Except.error "AttributeError" := rfl

/-- C6: `outdent()` on an adapter whose depth is 0 leaves the depth at 0 (a
no-op, with no underflow and no error); for depth > 0 it decrements the depth
by exactly 1. -/
theorem outdent_clamped_at_zero (a : IndentingLoggerAdapter) :
    (a._indent_level = 0 → (a.outdent)._indent_level = 0) ∧
    (0 < a._indent_level → (a.outdent)._indent_level = a._indent_level - 1) := by
  constructor
  · intro h
    simp [IndentingLoggerAdapter.outdent, h]
  · intro h
    simp only [IndentingLoggerAdapter.outdent]
    omega

/-- Witness for C6: outdent from depth 0 stays at 0; outdent from depth 2
yields 1. -/
theorem outdent_clamped_at_zero_witness :
    ((⟨0⟩ : IndentingLoggerAdapter).outdent)._indent_level = 0 ∧
    ((⟨2⟩ : IndentingLoggerAdapter).outdent)._indent_level = 2 - 1 :=
  ⟨(outdent_clamped_at_zero ⟨0⟩).1 rfl, (outdent_clamped_at_zero ⟨2⟩).2 (by decide)⟩

/-- C8: `process(message, kwargs)` returns the kwargs component unchanged, and
the dispatch path forwards the severity level unchanged — processing alters
only the message text. -/
theorem process_preserves_kwargs_and_level {K : Type} (a : IndentingLoggerAdapter)
    (level : Int) (msg : String) (kwargs : K) :
    (a.process msg kwargs).2 = kwargs ∧
    (a.log level msg kwargs).1 = level ∧
    (a.log level msg kwargs).2.2 = kwargs :=
  ⟨rfl, rfl, rfl⟩

/-- C9: the adapter's indentation depth is 0 after construction, and `indent`
and `outdent` both preserve non-negativity of the depth (`process` does not
touch the depth at all: it is a pure function of the state). -/
theorem depth_nonneg_invariant :
    IndentingLoggerAdapter.init._indent_level = 0 ∧
    ∀ a : IndentingLoggerAdapter, 0 ≤ a._indent_level →
      0 ≤ (a.indent)._indent_level ∧ 0 ≤ (a.outdent)._indent_level := by
  refine ⟨rfl, fun a ha => ⟨?_, ?_⟩⟩
  · show (0 : Int) ≤ a._indent_level + 1
    omega
  · exact le_max_left _ _

/-- Witness for C9: both operations applied at depth 1 keep the depth
non-negative. -/
theorem depth_nonneg_invariant_witness :
    0 ≤ ((⟨1⟩ : IndentingLoggerAdapter).indent)._indent_level ∧
    0 ≤ ((⟨1⟩ : IndentingLoggerAdapter).outdent)._indent_level :=
  depth_nonneg_invariant.2 ⟨1⟩ (by decide)

/-- C10: at every adapter depth, processing the empty message returns the
empty string (and the kwargs unchanged): a message with no lines receives no
indentation. -/
theorem process_empty_message {K : Type} (a : IndentingLoggerAdapter) (kwargs : K) :
    a.process "" kwargs = ("", kwargs) := rfl

/-- C2: For every message — presented as its decomposition into line bodies,
each free of line-break characters and the last nonempty, joined with `\n` —
and every adapter depth `d`, `process(message, kwargs)` returns the message
with exactly `d` copies of the two-space indent unit prepended to every line
(each line of a multi-line message individually receives the prefix, and the
embedded line breaks are preserved), together with the kwargs. -/
theorem process_indents_every_line {K : Type} (a : IndentingLoggerAdapter) (d : Nat)
    (hd : a._indent_level = (d : Int)) (bodies : List String) (kwargs : K)
    (hb : ∀ b ∈ bodies, lineOk b = true)
    (hl : bodies.getLast? ≠ some "") :
    a.process (strJoinNL bodies) kwargs =
      (strJoinNL (bodies.map (fun b => String.join (List.replicate d "  ") ++ b)),
        kwargs) :=
  process_strJoinNL a d hd bodies kwargs hb hl

/-- Witness for C2, the spec's scenario: at depth 1 the message
`"line1\nline2"` becomes `"  line1\n  line2"` with the kwargs unchanged. -/
theorem process_indents_every_line_witness :
    ((⟨1⟩ : IndentingLoggerAdapter)._indent_level = ((1 : Nat) : Int)) ∧
    IndentingLoggerAdapter.process ⟨1⟩ (strJoinNL ["line1", "line2"]) (0 : Nat) =
      (strJoinNL ["  line1", "  line2"], 0) := by
  refine ⟨rfl, ?_⟩
  have h := process_indents_every_line ⟨1⟩ 1 rfl ["line1", "line2"] (0 : Nat)
    (by decide) (by decide)
  rw [h]
  rfl

theorem indentN_level (n : Nat) (a : IndentingLoggerAdapter) :
    (indentN n a)._indent_level = a._indent_level + n := by
  induction n generalizing a with
  | zero => simp [indentN]
  | succ n ih =>
    rw [indentN, ih]
    show a._indent_level + 1 + (n : Int) = a._indent_level + ((n : Int) + 1)
    omega

theorem outdentN_level (n : Nat) (a : IndentingLoggerAdapter)
    (ha : 0 ≤ a._indent_level) :
    (outdentN n a)._indent_level = max 0 (a._indent_level - n) := by
  induction n generalizing a with
  | zero =>
    show a._indent_level = max 0 (a._indent_level - (0 : Nat))
    omega
  | succ n ih =>
    rw [outdentN, ih a.outdent (le_max_left _ _)]
    show max 0 (max 0 (a._indent_level - 1) - (n : Int))
        = max 0 (a._indent_level - ((n : Int) + 1))
    omega

/-- C7: For every non-negative integer `n`, starting from a freshly
constructed adapter (depth 0), calling `indent()` `n` times followed by
`outdent()` `n` times returns the depth to 0; and at each intermediate point
(after `m ≤ n` indent calls and `j ≤ m` outdent calls) the depth is `m - j`
and a processed message is prefixed with exactly that many copies of the
indent unit on every line. -/
theorem indent_outdent_balance (n : Nat) :
    (outdentN n (indentN n IndentingLoggerAdapter.init))._indent_level = 0 ∧
    ∀ m j : Nat, j ≤ m → m ≤ n →
      (outdentN j (indentN m IndentingLoggerAdapter.init))._indent_level
        = ((m - j : Nat) : Int) ∧
      ∀ (K : Type) (bodies : List String) (kwargs : K),
        (∀ b ∈ bodies, lineOk b = true) → bodies.getLast? ≠ some "" →
        (outdentN j (indentN m IndentingLoggerAdapter.init)).process
            (strJoinNL bodies) kwargs =
          (strJoinNL
            (bodies.map (fun b => String.join (List.replicate (m - j) "  ") ++ b)),
            kwargs) := by
  have hlevel : ∀ m j : Nat, j ≤ m →
      (outdentN j (indentN m IndentingLoggerAdapter.init))._indent_level
        = ((m - j : Nat) : Int) := by
    intro m j hjm
    have h1 : (indentN m IndentingLoggerAdapter.init)._indent_level = (m : Int) := by
      rw [indentN_level]
      show (0 : Int) + (m : Int) = (m : Int)
      omega
    rw [outdentN_level j _ (by rw [h1]; exact Int.natCast_nonneg m), h1]
    omega
  refine ⟨?_, fun m j hjm _ => ⟨hlevel m j hjm, ?_⟩⟩
  · have := hlevel n n le_rfl
    simpa using this
  · intro K bodies kwargs hb hl
    exact process_strJoinNL _ (m - j) (hlevel m j hjm) bodies kwargs hb hl

/-- Witness for C7 at `n = 2`: two indents then two outdents return the depth
to 0, and at the intermediate point `m = 2, j = 1` the message `"ab\ncd"` is
processed to `"  ab\n  cd"`. -/
theorem indent_outdent_balance_witness :
    (outdentN 2 (indentN 2 IndentingLoggerAdapter.init))._indent_level = 0 ∧
    (outdentN 1 (indentN 2 IndentingLoggerAdapter.init)).process
        (strJoinNL ["ab", "cd"]) (0 : Nat) =
      (strJoinNL ["  ab", "  cd"], 0) := by
  have h := indent_outdent_balance 2
  have h2 := (h.2 2 1 (by decide) (by decide)).2 Nat ["ab", "cd"] 0
    (by decide) (by decide)
  refine ⟨h.1, ?_⟩
  rw [h2]
  rfl

end Logtweaks
